import Mathlib

/-!
Verification development for the trendr collection and topic-tagging
pipeline (src-tauri/src).  The Rust sources are embedded shallowly:

* `topics.rs`   — keyword-based topic extraction (`extract_topics`);
* `reddit.rs` / `x.rs` / `youtube.rs` — ingestion, creator upsert,
  topic links, co-occurrence upserts, and the per-target collect loops;
* `commands.rs` — the collection commands and the shared run state.

SQLite tables become lists of rows, the process-wide run state becomes an
explicit state value, network fetches and `uuid`/clock calls become
parameters, and `f64` confidence values are modelled as exact rationals
(every value the formula produces is a small decimal).
-/

namespace Trendr

/-! ## Topic extraction (topics.rs) -/

/-- Word characters of the word-boundary class used by the patterns that
`extract_topics` builds (`\b … \b`): ASCII letters, digits and underscore
(the catalog keywords and all texts of interest here are ASCII). -/
def isWordChar (c : Char) : Bool :=
  c.isAlphanum || c == '_'

/-- Whether the first character of a character list is a word character; an
empty list (no character at that position) counts as non-word. -/
def headIsWord : List Char → Bool
  | [] => false
  | c :: _ => isWordChar c

/-- Word-ness of the last character of a list, with `prev` as the answer for
an empty list (the word-ness of the character preceding the list). -/
def lastIsWordAux (prev : Bool) : List Char → Bool
  | [] => prev
  | c :: cs => lastIsWordAux (isWordChar c) cs

/-- One step of the regex scan of `extract_topics`: the pattern
`\b(escape kw)\b` matches at the current position, where `rest` is the text
remainder from this position on and `prevW` is the word-ness of the
character just before it.  Both boundary assertions require the word-ness
to change across the boundary; a position outside the text is non-word. -/
def wholeWordHere (prevW : Bool) (kw rest : List Char) : Bool :=
  !kw.isEmpty && kw.isPrefixOf rest &&
    (prevW != headIsWord kw) &&
    (lastIsWordAux false kw != headIsWord (rest.drop kw.length))

/-- Fuelled scanner mirroring `regex.find_iter` over `\b(escape kw)\b`:
scan left to right; at a match, count it and resume after the matched
characters (matches never overlap); otherwise advance one character.  The
fuel only bounds the recursion; `countMatches` passes `text.length`, and
every step consumes at least one character of the text. -/
def scanFuel (kw : List Char) : Nat → Bool → List Char → Nat
  | 0, _, _ => 0
  | _ + 1, _, [] => 0
  | fuel + 1, prevW, c :: cs =>
    if wholeWordHere prevW kw (c :: cs) then
      1 + scanFuel kw fuel (lastIsWordAux false kw) (cs.drop (kw.length - 1))
    else
      scanFuel kw fuel (isWordChar c) cs

/-- Number of whole-word occurrences of keyword `kw` in `text`, as counted
by `regex.find_iter` in `extract_topics` (`match_count` contribution of one
keyword).  At the start of the text there is no previous character, hence
the `false` word-ness context. -/
def countMatches (kw text : List Char) : Nat :=
  scanFuel kw text.length false text

/-- Row of the `topics` table as read by `load_topics`: id, name and the
decoded keyword list. -/
structure TopicData where
  id : String
  name : String
  keywords : List String
deriving DecidableEq

/-- Structure `ExtractedTopic` of topics.rs; `confidence` is the `f64` score, modelled
as an exact rational. -/
structure ExtractedTopic where
  topic_id : String
  topic_name : String
  confidence : ℚ
  mentions : Nat
deriving DecidableEq

/-- Model of `text.to_lowercase()` (ASCII case folding) as a character list. -/
def lowerText (s : String) : List Char :=
  s.data.map Char.toLower

/-- Total whole-word keyword hits of one topic against the lower-cased
text: the sum over the topic's keywords of the per-keyword counts. -/
def topicMatchCount (t : TopicData) (lowered : List Char) : Nat :=
  (t.keywords.map fun kw => countMatches kw.data lowered).sum

/-- Body of the per-topic loop of `extract_topics`: a topic with a positive
match count yields an entry with confidence `min (match_count * 0.2) 1`,
a topic with zero matches yields nothing. -/
def scoreTopic (t : TopicData) (lowered : List Char) : Option ExtractedTopic :=
  let match_count := topicMatchCount t lowered
  if 0 < match_count then
    some ⟨t.id, t.name, min ((match_count : ℚ) * 0.2) 1, match_count⟩
  else
    none

/-- Stable descending insertion: `x` goes in front of the first entry whose
confidence is not strictly greater, so among equal confidences earlier
entries stay first. -/
def insertDesc (x : ExtractedTopic) : List ExtractedTopic → List ExtractedTopic
  | [] => [x]
  | y :: ys => if x.confidence < y.confidence then y :: insertDesc x ys else x :: y :: ys

/-- Stable sort by confidence descending, standing in for the stable
`sort_by(|a, b| b.confidence.partial_cmp(&a.confidence).unwrap())` of
`extract_topics` (a stable sort for a total preorder is unique, so any
stable algorithm yields the same list). -/
def sortDesc : List ExtractedTopic → List ExtractedTopic
  | [] => []
  | x :: xs => insertDesc x (sortDesc xs)

/-- Function `extract_topics` of topics.rs.  The catalog parameter stands for the
rows `load_topics` reads from the `topics` table; the function lower-cases
the text once, scores every topic, drops zero-match topics, sorts by
confidence descending and truncates to the top 5. -/
def extract_topics (catalog : List TopicData) (text : String) : List ExtractedTopic :=
  let normalized_text := lowerText text
  let extracted := catalog.filterMap fun t => scoreTopic t normalized_text
  (sortDesc extracted).take 5

/-- Specification-side notion for C7: the keyword appears as a complete
token of the text — some decomposition `pre ++ kw ++ suf` where word-ness
changes across both edges of `kw` (a position outside the text is
non-word). -/
def wholeWordOccurrence (kw text : List Char) : Prop :=
  kw ≠ [] ∧ ∃ pre suf, text = pre ++ kw ++ suf ∧
    lastIsWordAux false pre ≠ headIsWord kw ∧
    lastIsWordAux false kw ≠ headIsWord suf

example : countMatches "ai".data (lowerText "AI is great") = 1 := by decide
example : countMatches "ai".data (lowerText "said and main") = 0 := by decide
example : countMatches "crypto".data (lowerText "Bitcoin to the moon! #crypto") = 1 := by decide

/-! ## Co-occurrence tracker (update_cooccurrences, identical in reddit.rs,
x.rs and youtube.rs) -/

/-- Row of the `topic_cooccurrences` table; `last_seen` models the
`CURRENT_TIMESTAMP` values as abstract instants. -/
structure CoocRow where
  topic_a_id : String
  topic_b_id : String
  frequency : Nat
  last_seen : Nat
deriving DecidableEq

/-- Primary key of a co-occurrence row. -/
def coocKey (r : CoocRow) : String × String :=
  (r.topic_a_id, r.topic_b_id)

/-- Key columns of a co-occurrence table. -/
def coocKeys (db : List CoocRow) : List (String × String) :=
  db.map coocKey

/-- Match on the conflict key `(topic_a_id, topic_b_id)`. -/
def keyMatches (a b : String) (r : CoocRow) : Bool :=
  r.topic_a_id == a && r.topic_b_id == b

/-- The DO UPDATE arm of the conflict clause: the row with the conflicting
key gets `frequency + 1` and a fresh `last_seen`, other rows are kept. -/
def bumpRow (a b : String) (now : Nat) (r : CoocRow) : CoocRow :=
  if keyMatches a b r then { r with frequency := r.frequency + 1, last_seen := now } else r

/-- The `INSERT … ON CONFLICT(topic_a_id, topic_b_id) DO UPDATE` statement
of `update_cooccurrences`: a conflicting row gets `frequency + 1` and a
fresh `last_seen`, otherwise a new row with frequency 1 is inserted. -/
def upsertCooc (db : List CoocRow) (a b : String) (now : Nat) : List CoocRow :=
  if db.any (keyMatches a b) then
    db.map (bumpRow a b now)
  else
    db ++ [⟨a, b, 1, now⟩]

/-- Canonical ordering of one pair: the lexicographically smaller id first
(the `if topic_ids[i] < topic_ids[j]` branch of `update_cooccurrences`). -/
def canonPair (x y : String) : String × String :=
  if x < y then (x, y) else (y, x)

/-- The index pairs `i < j` of the double loop of `update_cooccurrences`,
each canonicalized. -/
def allPairs : List String → List (String × String)
  | [] => []
  | x :: xs => (xs.map fun y => canonPair x y) ++ allPairs xs

/-- Function `update_cooccurrences` of reddit.rs / x.rs / youtube.rs (the three
copies are identical): upsert every canonicalized pair `i < j` of the
extracted topic-id list, in loop order. -/
def update_cooccurrences (db : List CoocRow) (topic_ids : List String) (now : Nat) : List CoocRow :=
  (allPairs topic_ids).foldl (fun d p => upsertCooc d p.1 p.2 now) db

/-- Well-formedness of the co-occurrence table: keys are unique (the
primary key) and every row is stored smaller-id-first. -/
def CoocWF (db : List CoocRow) : Prop :=
  (coocKeys db).Nodup ∧ ∀ r ∈ db, r.topic_a_id < r.topic_b_id

/-! ## Content store (database.rs tables) and ingestion -/

/-- Row of the `creators` table (`primary_topics` is never written by the
pipeline and is omitted); `created_at` / `updated_at` model the
`CURRENT_TIMESTAMP` defaults. -/
structure CreatorRow where
  id : String
  platform : String
  platform_id : String
  username : String
  display_name : Option String
  follower_count : Option Int
  created_at : Nat
  updated_at : Nat
deriving DecidableEq

/-- Row of the `content` table; columns a platform's INSERT omits take the
schema defaults (`engagement_shares` 0, `engagement_views` NULL,
`collected_at` now). -/
structure ContentRow where
  id : String
  platform : String
  platform_id : String
  creator_id : String
  content_type : String
  text_content : String
  engagement_likes : Int
  engagement_comments : Int
  engagement_shares : Int
  engagement_views : Option Int
  published_at : String
  collected_at : Nat
deriving DecidableEq

/-- Row of the `content_topics` link table. -/
structure ContentTopicRow where
  content_id : String
  topic_id : String
  confidence : ℚ
deriving DecidableEq

/-- The SQLite store, one list of rows per table touched by ingestion. -/
structure Db where
  creators : List CreatorRow
  content : List ContentRow
  content_topics : List ContentTopicRow
  cooccurrences : List CoocRow
deriving DecidableEq

/-- The dedup query of `process_post` / `process_tweet` / `process_video`:
`SELECT COUNT(*) FROM content WHERE platform = … AND platform_id = …` is
positive. -/
def contentExists (db : Db) (platform pid : String) : Bool :=
  db.content.any fun c => c.platform == platform && c.platform_id == pid

/-- The `INSERT OR REPLACE INTO content_topics` statement on the primary key
`(content_id, topic_id)`: any conflicting row is dropped and the fresh row
inserted. -/
def upsertContentTopic (rows : List ContentTopicRow) (cid tid : String) (conf : ℚ) :
    List ContentTopicRow :=
  (rows.filter fun r => !(r.content_id == cid && r.topic_id == tid)) ++ [⟨cid, tid, conf⟩]

/-- Topic-link loop and co-occurrence step shared by the three
`process_*` functions: one `INSERT OR REPLACE` per extracted topic, then
`update_cooccurrences` when more than one topic matched. -/
def linkTopics (db : Db) (content_id : String) (topics : List ExtractedTopic) (now : Nat) : Db :=
  let db' := topics.foldl
    (fun d t => { d with content_topics := upsertContentTopic d.content_topics content_id t.topic_id t.confidence })
    db
  if topics.length > 1 then
    { db' with cooccurrences := update_cooccurrences db'.cooccurrences (topics.map fun t => t.topic_id) now }
  else
    db'

/-- Aggregate counters returned by a collector run (`CollectionResult`,
declared identically in reddit.rs, x.rs and youtube.rs). -/
structure CollectionResult where
  posts_collected : Nat
  topics_extracted : Nat
deriving DecidableEq

namespace Reddit

/-- Structure `RedditPostData` of reddit.rs; `created_utc` is the `f64` epoch value,
of which the code only uses the integer part (`as i64`). -/
structure RedditPostData where
  id : String
  subreddit : String
  author : String
  title : String
  selftext : String
  score : Int
  num_comments : Int
  created_utc : Int
deriving DecidableEq

/-- Function `get_or_create_creator` of reddit.rs: look the creator up by
`(platform = 'reddit', username)`; if absent, insert a row whose
`platform_id` and `username` are both the author name.  `uuid ctr` stands
for `Uuid::new_v4()`, and the returned counter tracks how many fresh ids
were consumed. -/
def get_or_create_creator (uuid : Nat → String) (ctr now : Nat) (username : String)
    (db : Db) : String × Db × Nat :=
  match db.creators.find? (fun c => c.platform == "reddit" && c.username == username) with
  | some c => (c.id, db, ctr)
  | none =>
    let creator_id := uuid ctr
    (creator_id,
      { db with creators := db.creators ++
          [⟨creator_id, "reddit", username, username, none, none, now, now⟩] },
      ctr + 1)

/-- Function `process_post` of reddit.rs.  `fmtTime` stands for the chrono
timestamp formatting of `created_utc`; the returned `Nat` is the number of
topics linked (`topics_count`), 0 on the dedup early return. -/
def process_post (catalog : List TopicData) (uuid : Nat → String) (fmtTime : Int → String)
    (ctr now : Nat) (post : RedditPostData) (db : Db) : Nat × Db × Nat :=
  if contentExists db "reddit" post.id then
    (0, db, ctr)
  else
    let (creator_id, db1, ctr1) := get_or_create_creator uuid ctr now post.author db
    let content_id := uuid ctr1
    let text_content := (post.title ++ "\n\n" ++ post.selftext).trim
    let published_at := fmtTime post.created_utc
    let db2 := { db1 with content := db1.content ++
      [⟨content_id, "reddit", post.id, creator_id, "post", text_content,
        post.score, post.num_comments, 0, none, published_at, now⟩] }
    let topics := extract_topics catalog text_content
    (topics.length, linkTopics db2 content_id topics now, ctr1 + 1)

/-- Accumulator of the collect loop: the two counters plus the threaded
store and uuid counter. -/
structure Acc where
  posts : Nat
  topics : Nat
  db : Db
  ctr : Nat
deriving DecidableEq

/-- Inner loop of `collect`: process every post of one fetched page.  In
this pure model `process_post` never fails, so the `Ok(topics_found)` arm
(`total_posts += 1; total_topics += topics_found`) is taken for every
post. -/
def processPage (catalog : List TopicData) (uuid : Nat → String) (fmtTime : Int → String)
    (now : Nat) (acc : Acc) (posts : List RedditPostData) : Acc :=
  posts.foldl
    (fun a post =>
      let (found, db', ctr') := process_post catalog uuid fmtTime a.ctr now post a.db
      ⟨a.posts + 1, a.topics + found, db', ctr'⟩)
    acc

/-- Outer loop of `collect` over the per-subreddit fetch outcomes: a
failed fetch is logged and skipped, a successful page is ingested post by
post. -/
def collectPages (catalog : List TopicData) (uuid : Nat → String) (fmtTime : Int → String)
    (now : Nat) (fetches : List (Except String (List RedditPostData))) (acc : Acc) : Acc :=
  fetches.foldl
    (fun a fetch =>
      match fetch with
      | .error _ => a
      | .ok posts => processPage catalog uuid fmtTime now a posts)
    acc

/-- Function `collect` of reddit.rs.  `token` is the outcome of the initial
`get_access_token` call and `fetches` the per-subreddit outcomes of
`fetch_subreddit_posts` (network collaborators).  The rate-limit sleep has
no observable effect here. -/
def collect (catalog : List TopicData) (uuid : Nat → String) (fmtTime : Int → String)
    (ctr0 now : Nat) (token : Except String String)
    (fetches : List (Except String (List RedditPostData))) (db0 : Db) :
    Except String (CollectionResult × Db × Nat) :=
  match token with
  | .error e => .error e
  | .ok _ =>
    let final := collectPages catalog uuid fmtTime now fetches ⟨0, 0, db0, ctr0⟩
    .ok (⟨final.posts, final.topics⟩, final.db, final.ctr)

end Reddit

namespace X

/-- Structure `PublicMetrics` of a tweet (x.rs); `impression_count` keeps its
optionality (`#[serde(default)]`). -/
structure PublicMetrics where
  like_count : Int
  reply_count : Int
  retweet_count : Int
  impression_count : Option Int
deriving DecidableEq

/-- Structure `Tweet` of x.rs. -/
structure Tweet where
  id : String
  text : String
  author_id : String
  created_at : Option String
  public_metrics : Option PublicMetrics
deriving DecidableEq

/-- Structure `UserPublicMetrics` of x.rs. -/
structure UserPublicMetrics where
  followers_count : Int
  following_count : Int
  tweet_count : Int
deriving DecidableEq

/-- Structure `XUser` of x.rs. -/
structure XUser where
  id : String
  username : String
  name : String
  public_metrics : Option UserPublicMetrics
deriving DecidableEq

/-- Composition of `build_users_map` and the map lookup: the `HashMap` keeps the last
insertion per user id, so the lookup yields the last listed user with the
author's id. -/
def lookupUser (users : List XUser) (uid : String) : Option XUser :=
  (users.filter fun u => u.id == uid).getLast?

/-- Function `get_or_create_creator` of x.rs: look the creator up by
`(platform = 'x', platform_id)`; when found and fresh public metrics are
available, refresh `follower_count`, `display_name` and `updated_at` on
every row with that key (the UPDATE's WHERE clause); when absent, insert
with the available profile fields, follower count defaulting to 0. -/
def get_or_create_creator (uuid : Nat → String) (ctr now : Nat) (user : XUser)
    (db : Db) : String × Db × Nat :=
  match db.creators.find? (fun c => c.platform == "x" && c.platform_id == user.id) with
  | some c =>
    match user.public_metrics with
    | some m =>
      (c.id,
        { db with creators := db.creators.map fun r =>
            if r.platform == "x" && r.platform_id == user.id then
              { r with follower_count := some m.followers_count,
                       display_name := some user.name, updated_at := now }
            else r },
        ctr)
    | none => (c.id, db, ctr)
  | none =>
    let creator_id := uuid ctr
    let follower_count := (user.public_metrics.map fun m => m.followers_count).getD 0
    (creator_id,
      { db with creators := db.creators ++
          [⟨creator_id, "x", user.id, user.username, some user.name,
            some follower_count, now, now⟩] },
      ctr + 1)

/-- Function `get_or_create_creator_by_id` of x.rs: placeholder creator when the
user expansion is missing. -/
def get_or_create_creator_by_id (uuid : Nat → String) (ctr now : Nat) (author_id : String)
    (db : Db) : String × Db × Nat :=
  match db.creators.find? (fun c => c.platform == "x" && c.platform_id == author_id) with
  | some c => (c.id, db, ctr)
  | none =>
    let creator_id := uuid ctr
    (creator_id,
      { db with creators := db.creators ++
          [⟨creator_id, "x", author_id, author_id, none, none, now, now⟩] },
      ctr + 1)

/-- Function `process_tweet` of x.rs; the returned `Nat` is the number of topics
linked, 0 on the dedup early return. -/
def process_tweet (catalog : List TopicData) (uuid : Nat → String) (ctr now : Nat)
    (tweet : Tweet) (author : Option XUser) (db : Db) : Nat × Db × Nat :=
  if contentExists db "x" tweet.id then
    (0, db, ctr)
  else
    let (creator_id, db1, ctr1) :=
      match author with
      | some user => get_or_create_creator uuid ctr now user db
      | none => get_or_create_creator_by_id uuid ctr now tweet.author_id db
    let content_id := uuid ctr1
    let metrics :=
      match tweet.public_metrics with
      | some m => (m.like_count, m.reply_count, m.retweet_count, m.impression_count)
      | none => ((0 : Int), (0 : Int), (0 : Int), (none : Option Int))
    let published_at := tweet.created_at.getD ""
    let db2 := { db1 with content := db1.content ++
      [⟨content_id, "x", tweet.id, creator_id, "post", tweet.text,
        metrics.1, metrics.2.1, metrics.2.2.1, metrics.2.2.2, published_at, now⟩] }
    let topics := extract_topics catalog tweet.text
    (topics.length, linkTopics db2 content_id topics now, ctr1 + 1)

/-- Accumulator of the X collect loop. -/
structure Acc where
  posts : Nat
  topics : Nat
  db : Db
  ctr : Nat
deriving DecidableEq

/-- Inner loop of `collect` over the tweets of one search response, looking
each author up in the users map.  In this pure model `process_tweet` never
fails, so `total_posts += 1` fires for every tweet. -/
def processPage (catalog : List TopicData) (uuid : Nat → String) (now : Nat)
    (users : List XUser) (acc : Acc) (tweets : List Tweet) : Acc :=
  tweets.foldl
    (fun a tweet =>
      let (found, db', ctr') :=
        process_tweet catalog uuid a.ctr now tweet (lookupUser users tweet.author_id) a.db
      ⟨a.posts + 1, a.topics + found, db', ctr'⟩)
    acc

/-- Outer loop of `collect` over the per-query search outcomes: a failed
search is logged and skipped, a response without tweet data contributes
nothing. -/
def collectPages (catalog : List TopicData) (uuid : Nat → String) (now : Nat)
    (fetches : List (Except String (Option (List Tweet) × List XUser))) (acc : Acc) : Acc :=
  fetches.foldl
    (fun a fetch =>
      match fetch with
      | .error _ => a
      | .ok (data, users) =>
        match data with
        | some tweets => processPage catalog uuid now users a tweets
        | none => a)
    acc

/-- Function `collect` of x.rs.  Each entry of `fetches` is the outcome of
`search_tweets` for one query: on success the optional tweet list
(`response.data`) and the expanded users (`response.includes.users`).
`x::collect` itself never returns an error. -/
def collect (catalog : List TopicData) (uuid : Nat → String) (ctr0 now : Nat)
    (fetches : List (Except String (Option (List Tweet) × List XUser)))
    (db0 : Db) : CollectionResult × Db × Nat :=
  let final := collectPages catalog uuid now fetches ⟨0, 0, db0, ctr0⟩
  (⟨final.posts, final.topics⟩, final.db, final.ctr)

end X

/-! ## Collection commands and shared run state (commands.rs)

The entry points are modelled as state transformers on the process-wide
`COLLECTION_STATE`.  The delegated collector call is passed in as its
outcome (`outcome`), since the collectors touch only the SQLite store,
never the run state; `now` stands for `chrono::Utc::now().to_rfc3339()`.
Each command is split into its guard phase (`…Acquire`, everything up to
and including the `is_running` check) and, for Reddit, the unconditional
completion block, so that the state visible while the delegated collector
is running is part of the model. -/

/-- Structure `RedditCredentials` of settings.rs. -/
structure RedditCredentials where
  client_id : String
  client_secret : String
  username : String
  password : String
deriving DecidableEq

/-- Bearer-token credentials read by `run_x_collection` (`settings.x`;
the field is consumed in commands.rs, its declaration is not in the
settings.rs source provided). -/
structure XCredentials where
  bearer_token : String
deriving DecidableEq

/-- API-key credentials read by `run_youtube_collection`
(`settings.youtube`; consumed in commands.rs, declaration not in the
settings.rs source provided). -/
structure YouTubeCredentials where
  api_key : String
deriving DecidableEq

/-- Structure `AppSettings` as consumed by commands.rs: the reddit fields from
settings.rs plus the `x` / `x_queries` / `youtube` / `youtube_queries`
fields commands.rs reads. -/
structure AppSettings where
  reddit : Option RedditCredentials
  subreddits : List String
  x : Option XCredentials
  x_queries : List String
  youtube : Option YouTubeCredentials
  youtube_queries : List String
deriving DecidableEq

/-- Structure `CollectionState` of commands.rs (the process-wide
`COLLECTION_STATE`). -/
structure CollectionState where
  is_running : Bool
  last_run_at : Option String
  last_error : Option String
deriving DecidableEq

/-- Value `CollectionState::default()`: idle, no timestamp, no error. -/
def initState : CollectionState :=
  ⟨false, none, none⟩

/-- Guard phase of `run_x_collection`: credential check, empty-query
check, then the non-blocking `is_running` check.  On success the run
proceeds — without ever writing the state (the command only reads the
flag). -/
def xAcquire (s : AppSettings) (st : CollectionState) : Except String CollectionState :=
  match s.x with
  | none => .error "X credentials not configured"
  | some _ =>
    if s.x_queries.isEmpty then
      .error "No X search queries configured. Add some topics to search for."
    else if st.is_running then
      .error "Collection already in progress"
    else
      .ok st

/-- Guard phase of `run_youtube_collection`; like the X command it only
reads the flag. -/
def youtubeAcquire (s : AppSettings) (st : CollectionState) : Except String CollectionState :=
  match s.youtube with
  | none => .error "YouTube credentials not configured"
  | some _ =>
    if s.youtube_queries.isEmpty then
      .error "No YouTube search queries configured. Add some topics to search for."
    else if st.is_running then
      .error "Collection already in progress"
    else
      .ok st

/-- Guard phase of `run_collection` (Reddit): credential check, then the
non-blocking `is_running` check; on success the command sets
`is_running = true` and clears `last_error`.  There is no emptiness check
on `subreddits`. -/
def redditAcquire (s : AppSettings) (st : CollectionState) : Except String CollectionState :=
  match s.reddit with
  | none => .error "Reddit credentials not configured"
  | some _ =>
    if st.is_running then
      .error "Collection already in progress"
    else
      .ok { st with is_running := true, last_error := none }

/-- The `last_error` value recorded from a collector outcome. -/
def lastErrorOf (outcome : Except String CollectionResult) : Option String :=
  match outcome with
  | .ok _ => none
  | .error e => some e

/-- Command `run_x_collection` of commands.rs: guard phase, then delegate to
`x::collect` and return its outcome.  The command never writes the run
state, so the state component is unchanged on every path. -/
def run_x_collection (s : AppSettings) (st : CollectionState)
    (outcome : Except String CollectionResult) :
    Except String CollectionResult × CollectionState :=
  match xAcquire s st with
  | .error e => (.error e, st)
  | .ok st1 => (outcome, st1)

/-- Command `run_youtube_collection` of commands.rs; like the X command it never
writes the run state. -/
def run_youtube_collection (s : AppSettings) (st : CollectionState)
    (outcome : Except String CollectionResult) :
    Except String CollectionResult × CollectionState :=
  match youtubeAcquire s st with
  | .error e => (.error e, st)
  | .ok st1 => (outcome, st1)

/-- Command `run_collection` of commands.rs (Reddit): guard phase, delegate to
`reddit::collect`, then the unconditional completion block — clear
`is_running`, record `last_run_at = now` and record `last_error` from the
outcome. -/
def run_collection (s : AppSettings) (st : CollectionState)
    (outcome : Except String CollectionResult) (now : String) :
    Except String CollectionResult × CollectionState :=
  match redditAcquire s st with
  | .error e => (.error e, st)
  | .ok st1 =>
    (outcome, { st1 with is_running := false, last_run_at := some now,
                         last_error := lastErrorOf outcome })

/-! ## Sample data used by witnesses and counterexamples -/

/-- Settings with only X configured: credentials present, one query. -/
def xOnlySettings : AppSettings :=
  ⟨none, [], some ⟨"token"⟩, ["ai"], none, []⟩

/-- Settings with X credentials but an empty query list. -/
def xNoQueries : AppSettings :=
  ⟨none, [], some ⟨"token"⟩, [], none, []⟩

/-- Settings with Reddit credentials and an empty subreddit list. -/
def redditEmptyTargets : AppSettings :=
  ⟨some ⟨"id", "secret", "user", "pass"⟩, [], none, [], none, []⟩

/-- A run state with the shared flag set. -/
def runningState : CollectionState :=
  ⟨true, none, none⟩

/-- A content row already stored for `(reddit, p1)`. -/
def sampleContentRow : ContentRow :=
  ⟨"c1", "reddit", "p1", "u1", "post", "", 0, 0, 0, none, "", 0⟩

/-- A content row already stored for `(x, t1)`. -/
def sampleXContentRow : ContentRow :=
  ⟨"c2", "x", "t1", "u1", "post", "", 0, 0, 0, none, "", 0⟩

/-- A store already holding the two rows above. -/
def sampleDb : Db :=
  ⟨[], [sampleContentRow, sampleXContentRow], [], []⟩

/-- A raw Reddit post whose `(platform, platform_id)` pair collides with
`sampleContentRow`. -/
def samplePost : Reddit.RedditPostData :=
  ⟨"p1", "rust", "alice", "a title", "a body", 3, 1, 0⟩

/-- A raw tweet whose `(platform, platform_id)` pair collides with
`sampleXContentRow`. -/
def sampleTweet : X.Tweet :=
  ⟨"t1", "hello world", "a1", none, none⟩

/-! ## C1 — idempotent ingestion on the dedup key -/

/-- C1: ingestion is idempotent on the dedup key.  For a raw item whose
`(platform, platform_id)` already has a content row, `process_post` /
`process_tweet` return 0 immediately with the store unchanged (no creator
write, no content insert, no topic link, no co-occurrence update) and
without consuming a fresh id. -/
theorem ingest_dedup_noop :
    (∀ (catalog : List TopicData) (uuid : Nat → String) (fmtTime : Int → String)
      (ctr now : Nat) (post : Reddit.RedditPostData) (db : Db),
      contentExists db "reddit" post.id = true →
      Reddit.process_post catalog uuid fmtTime ctr now post db = (0, db, ctr)) ∧
    (∀ (catalog : List TopicData) (uuid : Nat → String) (ctr now : Nat)
      (tweet : X.Tweet) (author : Option X.XUser) (db : Db),
      contentExists db "x" tweet.id = true →
      X.process_tweet catalog uuid ctr now tweet author db = (0, db, ctr)) := by
  constructor
  · intro catalog uuid fmtTime ctr now post db h
    simp [Reddit.process_post, h]
  · intro catalog uuid ctr now tweet author db h
    simp [X.process_tweet, h]

/-- Witness for C1 at a concrete duplicate post and a concrete duplicate
tweet. -/
theorem ingest_dedup_noop_witness :
    Reddit.process_post [] (fun n => toString n) (fun t => toString t) 0 7 samplePost sampleDb
      = (0, sampleDb, 0) ∧
    X.process_tweet [] (fun n => toString n) 0 7 sampleTweet none sampleDb
      = (0, sampleDb, 0) :=
  ⟨ingest_dedup_noop.1 [] (fun n => toString n) (fun t => toString t) 0 7 samplePost sampleDb
      (by decide),
   ingest_dedup_noop.2 [] (fun n => toString n) 0 7 sampleTweet none sampleDb (by decide)⟩

/-! ## C4 — run exclusivity across platforms -/

/-- C4 counterexample: the X entry point checks the shared flag but never
sets it.  Starting an X run from the idle state leaves the state exactly
`initState` (flag still false), so a second start attempted while the
first run is active also succeeds instead of failing with the
already-running error. -/
theorem x_run_does_not_set_guard_cex :
    (run_x_collection xOnlySettings initState (Except.ok ⟨0, 0⟩)).2 = initState ∧
    initState.is_running = false ∧
    (run_x_collection xOnlySettings
        ((run_x_collection xOnlySettings initState (Except.ok ⟨0, 0⟩)).2)
        (Except.ok ⟨0, 0⟩)).1 = Except.ok ⟨0, 0⟩ :=
  ⟨rfl, rfl, rfl⟩

/-- C4 amended: every entry point checks the shared `is_running` flag
non-blockingly and fails immediately with the already-running error while
the flag is set, but only the Reddit command ever sets the flag; the X and
YouTube commands leave the state untouched on acquisition, so they do not
exclude runs started while they are active. -/
theorem guard_checked_everywhere_set_only_by_reddit :
    (∀ (s : AppSettings) (c : XCredentials) (st : CollectionState),
      s.x = some c → s.x_queries ≠ [] → st.is_running = true →
      xAcquire s st = .error "Collection already in progress") ∧
    (∀ (s : AppSettings) (c : YouTubeCredentials) (st : CollectionState),
      s.youtube = some c → s.youtube_queries ≠ [] → st.is_running = true →
      youtubeAcquire s st = .error "Collection already in progress") ∧
    (∀ (s : AppSettings) (c : RedditCredentials) (st : CollectionState),
      s.reddit = some c → st.is_running = true →
      redditAcquire s st = .error "Collection already in progress") ∧
    (∀ (s : AppSettings) (c : RedditCredentials) (st : CollectionState),
      s.reddit = some c → st.is_running = false →
      redditAcquire s st = .ok { st with is_running := true, last_error := none }) ∧
    (∀ (s : AppSettings) (c : XCredentials) (st : CollectionState),
      s.x = some c → s.x_queries ≠ [] → st.is_running = false →
      xAcquire s st = .ok st) ∧
    (∀ (s : AppSettings) (c : YouTubeCredentials) (st : CollectionState),
      s.youtube = some c → s.youtube_queries ≠ [] → st.is_running = false →
      youtubeAcquire s st = .ok st) := by
  refine ⟨?_, ?_, ?_, ?_, ?_, ?_⟩
  · intro s c st hx hq hr
    simp [xAcquire, hx, hq, hr]
  · intro s c st hy hq hr
    simp [youtubeAcquire, hy, hq, hr]
  · intro s c st hc hr
    simp [redditAcquire, hc, hr]
  · intro s c st hc hr
    simp [redditAcquire, hc, hr]
  · intro s c st hx hq hr
    simp [xAcquire, hx, hq, hr]
  · intro s c st hy hq hr
    simp [youtubeAcquire, hy, hq, hr]

/-- Witness for the amended C4 at concrete settings and a running state. -/
theorem guard_checked_everywhere_witness :
    xAcquire xOnlySettings runningState = .error "Collection already in progress" :=
  guard_checked_everywhere_set_only_by_reddit.1 xOnlySettings ⟨"token"⟩ runningState rfl
    (by decide) rfl

/-! ## C8 — configuration checks before the guard -/

/-- C8 counterexample: the Reddit entry point does not reject an empty
subreddit list.  With credentials present and `subreddits = []`, the guard
phase succeeds and sets the flag instead of failing with a configuration
error. -/
theorem empty_subreddits_not_config_checked_cex :
    redditEmptyTargets.subreddits = [] ∧
    redditAcquire redditEmptyTargets initState = Except.ok ⟨true, none, none⟩ :=
  ⟨rfl, rfl⟩

/-- C8 amended: the X and YouTube entry points fail fast with a
configuration error on absent credentials or an empty query list — before
the guard is consulted (the same error is returned whatever the guard
state, and the state is untouched).  The Reddit entry point checks only
the credentials this way; an empty subreddit list is not rejected and the
run proceeds to acquire the guard. -/
theorem config_checks_before_guard :
    (∀ (s : AppSettings) (st : CollectionState) (o : Except String CollectionResult),
      s.x = none →
      run_x_collection s st o = (.error "X credentials not configured", st)) ∧
    (∀ (s : AppSettings) (c : XCredentials) (st : CollectionState)
      (o : Except String CollectionResult),
      s.x = some c → s.x_queries = [] →
      run_x_collection s st o =
        (.error "No X search queries configured. Add some topics to search for.", st)) ∧
    (∀ (s : AppSettings) (st : CollectionState) (o : Except String CollectionResult),
      s.youtube = none →
      run_youtube_collection s st o = (.error "YouTube credentials not configured", st)) ∧
    (∀ (s : AppSettings) (c : YouTubeCredentials) (st : CollectionState)
      (o : Except String CollectionResult),
      s.youtube = some c → s.youtube_queries = [] →
      run_youtube_collection s st o =
        (.error "No YouTube search queries configured. Add some topics to search for.", st)) ∧
    (∀ (s : AppSettings) (st : CollectionState) (o : Except String CollectionResult)
      (now : String),
      s.reddit = none →
      run_collection s st o now = (.error "Reddit credentials not configured", st)) ∧
    (∀ (s : AppSettings) (c : RedditCredentials) (st : CollectionState)
      (o : Except String CollectionResult) (now : String),
      s.reddit = some c → st.is_running = false →
      (run_collection s st o now).1 = o) := by
  refine ⟨?_, ?_, ?_, ?_, ?_, ?_⟩
  · intro s st o hx
    simp [run_x_collection, xAcquire, hx]
  · intro s c st o hx hq
    simp [run_x_collection, xAcquire, hx, hq]
  · intro s st o hy
    simp [run_youtube_collection, youtubeAcquire, hy]
  · intro s c st o hy hq
    simp [run_youtube_collection, youtubeAcquire, hy, hq]
  · intro s st o now hc
    simp [run_collection, redditAcquire, hc]
  · intro s c st o now hc hr
    simp [run_collection, redditAcquire, hc, hr]

/-- Witness for the amended C8: the empty-query configuration error is
returned even while the guard is held, and the state is untouched. -/
theorem config_checks_before_guard_witness :
    run_x_collection xNoQueries runningState (Except.ok ⟨0, 0⟩) =
      (.error "No X search queries configured. Add some topics to search for.", runningState) :=
  config_checks_before_guard.2.1 xNoQueries ⟨"token"⟩ runningState (Except.ok ⟨0, 0⟩) rfl rfl

/-! ## C9 — only the Reddit command writes the run state -/

/-- C9: the X and YouTube commands never modify the shared run state — on
every path (success or failure) the state after the call equals the state
before; only the Reddit command sets `is_running` on acquisition and
records `last_run_at` / `last_error` on completion. -/
theorem run_state_frame_only_reddit_writes :
    (∀ (s : AppSettings) (st : CollectionState) (o : Except String CollectionResult),
      (run_x_collection s st o).2 = st) ∧
    (∀ (s : AppSettings) (st : CollectionState) (o : Except String CollectionResult),
      (run_youtube_collection s st o).2 = st) ∧
    (∀ (s : AppSettings) (c : RedditCredentials) (st : CollectionState)
      (o : Except String CollectionResult) (now : String),
      s.reddit = some c → st.is_running = false →
      (run_collection s st o now).2 = ⟨false, some now, lastErrorOf o⟩) ∧
    (∀ (s : AppSettings) (c : RedditCredentials) (st : CollectionState),
      s.reddit = some c → st.is_running = false →
      redditAcquire s st = .ok ⟨true, st.last_run_at, none⟩) := by
  refine ⟨?_, ?_, ?_, ?_⟩
  · intro s st o
    unfold run_x_collection xAcquire
    rcases s.x with _ | c
    · rfl
    · by_cases h1 : s.x_queries.isEmpty <;> by_cases h2 : st.is_running <;> simp [h1, h2]
  · intro s st o
    unfold run_youtube_collection youtubeAcquire
    rcases s.youtube with _ | c
    · rfl
    · by_cases h1 : s.youtube_queries.isEmpty <;> by_cases h2 : st.is_running <;> simp [h1, h2]
  · intro s c st o now hc hr
    simp [run_collection, redditAcquire, hc, hr]
  · intro s c st hc hr
    simp [redditAcquire, hc, hr]

/-- Witness for C9: a Reddit run from idle settings records the timestamp
and a clear error. -/
theorem run_state_frame_witness :
    (run_collection redditEmptyTargets initState (Except.ok ⟨0, 0⟩) "2026-01-01T00:00:00Z").2 =
      ⟨false, some "2026-01-01T00:00:00Z", none⟩ :=
  run_state_frame_only_reddit_writes.2.2.1 redditEmptyTargets ⟨"id", "secret", "user", "pass"⟩
    initState (Except.ok ⟨0, 0⟩) "2026-01-01T00:00:00Z" rfl rfl

/-! ## Extraction engine lemmas -/

theorem scoreTopic_eq_some {t : TopicData} {lowered : List Char} {e : ExtractedTopic}
    (hs : scoreTopic t lowered = some e) :
    0 < topicMatchCount t lowered ∧
      e = ⟨t.id, t.name, min ((topicMatchCount t lowered : ℚ) * 0.2) 1,
           topicMatchCount t lowered⟩ := by
  unfold scoreTopic at hs
  by_cases hm : 0 < topicMatchCount t lowered
  · simp only [hm, if_pos] at hs
    exact ⟨hm, (Option.some_inj.mp hs).symm⟩
  · simp [hm] at hs

theorem mem_insertDesc {x a : ExtractedTopic} {l : List ExtractedTopic} :
    x ∈ insertDesc a l ↔ x = a ∨ x ∈ l := by
  induction l with
  | nil => simp [insertDesc]
  | cons y ys ih =>
    simp only [insertDesc]
    split
    · simp only [List.mem_cons, ih]
      tauto
    · simp only [List.mem_cons]

theorem insertDesc_perm (a : ExtractedTopic) (l : List ExtractedTopic) :
    List.Perm (insertDesc a l) (a :: l) := by
  induction l with
  | nil => exact List.Perm.refl _
  | cons y ys ih =>
    simp only [insertDesc]
    split
    · exact (ih.cons y).trans (List.Perm.swap a y ys)
    · exact List.Perm.refl _

theorem sortDesc_perm (l : List ExtractedTopic) : List.Perm (sortDesc l) l := by
  induction l with
  | nil => exact List.Perm.refl _
  | cons x xs ih => exact (insertDesc_perm x (sortDesc xs)).trans (ih.cons x)

theorem insertDesc_pairwise {a : ExtractedTopic} {l : List ExtractedTopic}
    (h : l.Pairwise fun p q => q.confidence ≤ p.confidence) :
    (insertDesc a l).Pairwise fun p q => q.confidence ≤ p.confidence := by
  induction l with
  | nil => simp [insertDesc]
  | cons y ys ih =>
    rcases List.pairwise_cons.mp h with ⟨hy, hys⟩
    simp only [insertDesc]
    split
    · rename_i hlt
      refine List.pairwise_cons.mpr ⟨?_, ih hys⟩
      intro z hz
      rcases mem_insertDesc.mp hz with rfl | hz'
      · exact le_of_lt hlt
      · exact hy z hz'
    · rename_i hnlt
      refine List.pairwise_cons.mpr ⟨?_, h⟩
      intro z hz
      rcases List.mem_cons.mp hz with rfl | hz'
      · exact not_lt.mp hnlt
      · exact (hy z hz').trans (not_lt.mp hnlt)

theorem sortDesc_pairwise (l : List ExtractedTopic) :
    (sortDesc l).Pairwise fun p q => q.confidence ≤ p.confidence := by
  induction l with
  | nil => simp [sortDesc]
  | cons x xs ih => exact insertDesc_pairwise ih

theorem extract_topics_def (catalog : List TopicData) (text : String) :
    extract_topics catalog text
      = (sortDesc (catalog.filterMap fun t => scoreTopic t (lowerText text))).take 5 := rfl

theorem mem_extract_topics {catalog : List TopicData} {text : String} {e : ExtractedTopic}
    (h : e ∈ extract_topics catalog text) :
    ∃ t ∈ catalog, 0 < topicMatchCount t (lowerText text) ∧
      e = ⟨t.id, t.name, min ((topicMatchCount t (lowerText text) : ℚ) * 0.2) 1,
           topicMatchCount t (lowerText text)⟩ := by
  rw [extract_topics_def] at h
  have h1 : e ∈ sortDesc (catalog.filterMap fun t => scoreTopic t (lowerText text)) :=
    List.take_subset 5 _ h
  have h2 : e ∈ catalog.filterMap fun t => scoreTopic t (lowerText text) :=
    (sortDesc_perm _).mem_iff.mp h1
  rcases List.mem_filterMap.mp h2 with ⟨t, ht, hsome⟩
  rcases scoreTopic_eq_some hsome with ⟨hm, rfl⟩
  exact ⟨t, ht, hm, rfl⟩

theorem extractAll_ids_sublist (catalog : List TopicData) (lowered : List Char) :
    ((catalog.filterMap fun t => scoreTopic t lowered).map ExtractedTopic.topic_id).Sublist
      (catalog.map TopicData.id) := by
  induction catalog with
  | nil => simp
  | cons t ts ih =>
    rw [List.filterMap_cons]
    cases hs : scoreTopic t lowered with
    | none =>
      simp only [List.map_cons]
      exact ih.cons _
    | some e =>
      have hid : e.topic_id = t.id := by
        rcases scoreTopic_eq_some hs with ⟨-, rfl⟩
        rfl
      simp only [List.map_cons, hid]
      exact ih.cons₂ _

/-! ## C2 — confidence formula -/

/-- Sample catalog topic for witnesses: the Cryptocurrency scenario of the
spec. -/
def cryptoTopic : TopicData :=
  ⟨"t-crypto", "Cryptocurrency", ["bitcoin", "crypto"]⟩

theorem extract_crypto_eval :
    extract_topics [cryptoTopic] "Bitcoin to the moon! #crypto"
      = [⟨"t-crypto", "Cryptocurrency", min ((2 : ℚ) * 0.2) 1, 2⟩] := by
  have hm : topicMatchCount cryptoTopic (lowerText "Bitcoin to the moon! #crypto") = 2 := by
    decide
  rw [extract_topics_def]
  simp only [List.filterMap_cons, List.filterMap_nil, scoreTopic, hm]
  norm_num [sortDesc, insertDesc]
  exact ⟨rfl, rfl⟩

/-- C2: every extracted topic's confidence is exactly
`min (match_count * 0.2) 1` where `match_count` is its total whole-word
keyword hit count (the `mentions` field, tied back to `topicMatchCount` of
a catalog row); 3 hits give 0.6 and any count of 5 or more gives exactly
1. -/
theorem extract_confidence_formula :
    (∀ (catalog : List TopicData) (text : String) (e : ExtractedTopic),
      e ∈ extract_topics catalog text →
      e.confidence = min ((e.mentions : ℚ) * 0.2) 1 ∧
      ∃ t ∈ catalog, e.topic_id = t.id ∧
        e.mentions = topicMatchCount t (lowerText text)) ∧
    min ((3 : ℚ) * 0.2) 1 = 0.6 ∧
    (∀ m : Nat, 5 ≤ m → min ((m : ℚ) * 0.2) 1 = 1) := by
  refine ⟨?_, by norm_num, ?_⟩
  · intro catalog text e he
    rcases mem_extract_topics he with ⟨t, ht, hm, rfl⟩
    exact ⟨rfl, t, ht, rfl, rfl⟩
  · intro m hm
    have h5 : (5 : ℚ) ≤ (m : ℚ) := by exact_mod_cast hm
    have h1 : (1 : ℚ) ≤ (m : ℚ) * 0.2 := by nlinarith
    exact min_eq_right h1

/-- Witness for C2: in the Bitcoin/crypto scenario the single extracted
topic has 2 hits and confidence `min (2 * 0.2) 1`. -/
theorem extract_confidence_witness :
    (⟨"t-crypto", "Cryptocurrency", min ((2 : ℚ) * 0.2) 1, 2⟩ : ExtractedTopic).confidence
      = min (((⟨"t-crypto", "Cryptocurrency", min ((2 : ℚ) * 0.2) 1, 2⟩ :
          ExtractedTopic).mentions : ℚ) * 0.2) 1 :=
  (extract_confidence_formula.1 [cryptoTopic] "Bitcoin to the moon! #crypto"
      ⟨"t-crypto", "Cryptocurrency", min ((2 : ℚ) * 0.2) 1, 2⟩
      (by rw [extract_crypto_eval]; exact List.mem_singleton_self _)).1

/-! ## C6 — capped, sorted, zero-match-free, deterministic output -/

/-- C6: for every input, extraction returns at most 5 topics, sorted by
confidence descending (ties keep discovery order — the sort is the stable
one), and topics with zero matches are excluded.  Determinism given the
catalog iteration order holds because `extract_topics` is a function of
the catalog list and the text. -/
theorem extract_topics_ranked_capped :
    ∀ (catalog : List TopicData) (text : String),
      (extract_topics catalog text).length ≤ 5 ∧
      (extract_topics catalog text).Pairwise (fun p q => q.confidence ≤ p.confidence) ∧
      ∀ e ∈ extract_topics catalog text, 0 < e.mentions := by
  intro catalog text
  refine ⟨?_, ?_, ?_⟩
  · rw [extract_topics_def]
    exact List.length_take_le 5 _
  · rw [extract_topics_def]
    exact (sortDesc_pairwise _).sublist (List.take_sublist 5 _)
  · intro e he
    rcases mem_extract_topics he with ⟨t, ht, hm, rfl⟩
    exact hm

/-- Witness for C6 in the Bitcoin/crypto scenario. -/
theorem extract_topics_ranked_witness :
    0 < (⟨"t-crypto", "Cryptocurrency", min ((2 : ℚ) * 0.2) 1, 2⟩ : ExtractedTopic).mentions :=
  (extract_topics_ranked_capped [cryptoTopic] "Bitcoin to the moon! #crypto").2.2
    ⟨"t-crypto", "Cryptocurrency", min ((2 : ℚ) * 0.2) 1, 2⟩
    (by rw [extract_crypto_eval]; exact List.mem_singleton_self _)

/-! ## Canonical pair lemmas -/

theorem canonPair_cases (x y : String) :
    canonPair x y = (x, y) ∨ canonPair x y = (y, x) := by
  unfold canonPair
  split
  · exact Or.inl rfl
  · exact Or.inr rfl

theorem canonPair_comm (x y : String) : canonPair x y = canonPair y x := by
  unfold canonPair
  rcases lt_trichotomy x y with h | h | h
  · rw [if_pos h, if_neg (not_lt.mpr h.le)]
  · subst h
    simp
  · rw [if_neg (not_lt.mpr h.le), if_pos h]

theorem canonPair_lt {x y : String} (h : x ≠ y) :
    (canonPair x y).1 < (canonPair x y).2 := by
  unfold canonPair
  rcases lt_or_gt_of_ne h with hlt | hgt
  · rw [if_pos hlt]
    exact hlt
  · rw [if_neg (not_lt.mpr hgt.le)]
    exact hgt

theorem canonPair_fst_or_snd (x y : String) :
    (canonPair x y).1 = x ∨ (canonPair x y).2 = x := by
  rcases canonPair_cases x y with h | h <;> rw [h]
  · exact Or.inl rfl
  · exact Or.inr rfl

theorem canonPair_inj_right {x y₁ y₂ : String} (h : canonPair x y₁ = canonPair x y₂) :
    y₁ = y₂ := by
  rcases canonPair_cases x y₁ with h1 | h1 <;> rcases canonPair_cases x y₂ with h2 | h2 <;>
    rw [h1, h2] at h <;> simp_all [Prod.ext_iff]

theorem mem_allPairs {p : String × String} :
    ∀ {l : List String}, p ∈ allPairs l → p.1 ∈ l ∧ p.2 ∈ l := by
  intro l
  induction l with
  | nil => simp [allPairs]
  | cons x xs ih =>
    intro hp
    simp only [allPairs, List.mem_append, List.mem_map] at hp
    rcases hp with ⟨y, hy, rfl⟩ | hp
    · rcases canonPair_cases x y with h | h <;> rw [h]
      · exact ⟨List.mem_cons_self x xs, List.mem_cons_of_mem x hy⟩
      · exact ⟨List.mem_cons_of_mem x hy, List.mem_cons_self x xs⟩
    · rcases ih hp with ⟨h1, h2⟩
      exact ⟨List.mem_cons_of_mem x h1, List.mem_cons_of_mem x h2⟩

theorem allPairs_lt : ∀ {l : List String}, l.Nodup → ∀ p ∈ allPairs l, p.1 < p.2 := by
  intro l
  induction l with
  | nil => simp [allPairs]
  | cons x xs ih =>
    intro hl p hp
    rcases List.nodup_cons.mp hl with ⟨hx, hxs⟩
    simp only [allPairs, List.mem_append, List.mem_map] at hp
    rcases hp with ⟨y, hy, rfl⟩ | hp
    · exact canonPair_lt fun hxy => hx (hxy ▸ hy)
    · exact ih hxs p hp

theorem allPairs_nodup : ∀ {l : List String}, l.Nodup → (allPairs l).Nodup := by
  intro l
  induction l with
  | nil => simp [allPairs]
  | cons x xs ih =>
    intro hl
    rcases List.nodup_cons.mp hl with ⟨hx, hxs⟩
    simp only [allPairs]
    refine List.Nodup.append ?_ (ih hxs) ?_
    · exact List.Nodup.map_on (fun y _ z _ h => canonPair_inj_right h) hxs
    · intro p hp hq
      rcases List.mem_map.mp hp with ⟨y, hy, rfl⟩
      rcases canonPair_fst_or_snd x y with h | h
      · exact hx (h ▸ (mem_allPairs hq).1)
      · exact hx (h ▸ (mem_allPairs hq).2)

/-! ## C10 — distinct topic ids, pairs touched at most once -/

/-- C10: when the catalog ids are distinct (their primary key), the list
returned by topic extraction has pairwise distinct topic ids — each
catalog topic contributes at most one entry — and consequently the
canonicalized pair list the co-occurrence loop iterates over is itself
duplicate-free, so one ingestion writes at most one topic-link row per
topic and upserts each unordered pair at most once. -/
theorem extracted_topic_ids_nodup :
    ∀ (catalog : List TopicData) (text : String),
      (catalog.map TopicData.id).Nodup →
      ((extract_topics catalog text).map ExtractedTopic.topic_id).Nodup ∧
      (allPairs ((extract_topics catalog text).map ExtractedTopic.topic_id)).Nodup := by
  intro catalog text h
  have base : ((catalog.filterMap fun t => scoreTopic t (lowerText text)).map
      ExtractedTopic.topic_id).Nodup :=
    (extractAll_ids_sublist catalog (lowerText text)).nodup h
  have hsort : ((sortDesc (catalog.filterMap fun t => scoreTopic t (lowerText text))).map
      ExtractedTopic.topic_id).Nodup :=
    (((sortDesc_perm _).map ExtractedTopic.topic_id).nodup_iff).mpr base
  have hfinal : ((extract_topics catalog text).map ExtractedTopic.topic_id).Nodup := by
    rw [extract_topics_def, List.map_take]
    exact (List.take_sublist 5 _).nodup hsort
  exact ⟨hfinal, allPairs_nodup hfinal⟩

/-- Witness for C10 at the crypto scenario catalog. -/
theorem extracted_topic_ids_nodup_witness :
    ((extract_topics [cryptoTopic] "Bitcoin to the moon! #crypto").map
      ExtractedTopic.topic_id).Nodup :=
  (extracted_topic_ids_nodup [cryptoTopic] "Bitcoin to the moon! #crypto" (by decide)).1

/-! ## C7 — whole-word, case-insensitive matching -/

theorem scanFuel_pos_occurrence (kw : List Char) :
    ∀ (fuel : Nat) (text : List Char) (prevW : Bool),
      0 < scanFuel kw fuel prevW text →
      kw ≠ [] ∧ ∃ pre suf, text = pre ++ kw ++ suf ∧
        lastIsWordAux prevW pre ≠ headIsWord kw ∧
        lastIsWordAux false kw ≠ headIsWord suf := by
  intro fuel
  induction fuel with
  | zero =>
    intro text prevW h
    simp [scanFuel] at h
  | succ f ih =>
    intro text prevW h
    cases text with
    | nil => simp [scanFuel] at h
    | cons c cs =>
      by_cases hw : wholeWordHere prevW kw (c :: cs) = true
      · unfold wholeWordHere at hw
        simp only [Bool.and_eq_true, bne_iff_ne, ne_eq, Bool.not_eq_true'] at hw
        obtain ⟨⟨⟨hne, hpref⟩, hstart⟩, hend⟩ := hw
        have hkw : kw ≠ [] := by
          intro hk
          subst hk
          simp at hne
        have hp : kw <+: (c :: cs) := List.isPrefixOf_iff_prefix.mp hpref
        rcases hp with ⟨t, ht⟩
        refine ⟨hkw, [], t, ?_, ?_, ?_⟩
        · rw [← ht]
          rfl
        · exact hstart
        · have hdrop : (c :: cs).drop kw.length = t := by
            rw [← ht, List.drop_left]
          rw [hdrop] at hend
          exact hend
      · have hred : scanFuel kw (f + 1) prevW (c :: cs) = scanFuel kw f (isWordChar c) cs := by
          simp [scanFuel, hw]
        rw [hred] at h
        rcases ih cs (isWordChar c) h with ⟨hkw, pre, suf, heq, hstart, hend⟩
        refine ⟨hkw, c :: pre, suf, ?_, ?_, ?_⟩
        · rw [heq]
          rfl
        · exact hstart
        · exact hend

/-- C7: keyword matching is whole-word and case-insensitive.  A keyword is
counted only where it occurs as a complete token of the lower-cased input
(a positive count yields a boundary-delimited occurrence); concretely,
keyword "ai" scores 0 against "said" and "main" but 1 against
"AI is great"; and a topic's match count is the sum of the per-keyword
counts over all its keywords. -/
theorem whole_word_matching :
    (∀ (kw text : List Char), 0 < countMatches kw text → wholeWordOccurrence kw text) ∧
    countMatches "ai".data (lowerText "said") = 0 ∧
    countMatches "ai".data (lowerText "main") = 0 ∧
    countMatches "ai".data (lowerText "AI is great") = 1 ∧
    (∀ (t : TopicData) (lowered : List Char),
      topicMatchCount t lowered = (t.keywords.map fun kw => countMatches kw.data lowered).sum) := by
  refine ⟨?_, by decide, by decide, by decide, fun t lowered => rfl⟩
  intro kw text h
  rcases scanFuel_pos_occurrence kw text.length text false h with ⟨hkw, pre, suf, heq, hs, he⟩
  exact ⟨hkw, pre, suf, heq, hs, he⟩

/-- Witness for C7: "ai" occurs as a complete token of the lower-cased
"AI is great". -/
theorem whole_word_matching_witness :
    wholeWordOccurrence "ai".data (lowerText "AI is great") :=
  whole_word_matching.1 "ai".data (lowerText "AI is great") (by decide)

/-! ## C3 — canonical, monotone co-occurrence upserts -/

theorem keyMatches_iff {a b : String} {r : CoocRow} :
    keyMatches a b r = true ↔ r.topic_a_id = a ∧ r.topic_b_id = b := by
  simp [keyMatches]

theorem coocKey_bumpRow (a b : String) (now : Nat) (r : CoocRow) :
    coocKey (bumpRow a b now r) = coocKey r := by
  unfold bumpRow
  split <;> rfl

theorem bumpRow_freq (a b : String) (now : Nat) (r : CoocRow) :
    r.frequency ≤ (bumpRow a b now r).frequency := by
  unfold bumpRow
  split
  · exact Nat.le_succ _
  · exact le_refl _

theorem coocKeys_map_bump (db : List CoocRow) (a b : String) (now : Nat) :
    coocKeys (db.map (bumpRow a b now)) = coocKeys db := by
  unfold coocKeys
  rw [List.map_map]
  exact List.map_congr_left fun r _ => coocKey_bumpRow a b now r

theorem upsertCooc_wf {db : List CoocRow} {a b : String} {now : Nat}
    (hab : a < b) (h : CoocWF db) : CoocWF (upsertCooc db a b now) := by
  rcases h with ⟨hkeys, hlt⟩
  unfold upsertCooc
  by_cases hany : db.any (keyMatches a b) = true
  · rw [if_pos hany]
    refine ⟨?_, ?_⟩
    · rw [coocKeys_map_bump]
      exact hkeys
    · intro r hr
      rcases List.mem_map.mp hr with ⟨r0, hr0, rfl⟩
      have hk := coocKey_bumpRow a b now r0
      unfold coocKey at hk
      have ha : (bumpRow a b now r0).topic_a_id = r0.topic_a_id := congrArg Prod.fst hk
      have hb : (bumpRow a b now r0).topic_b_id = r0.topic_b_id := congrArg Prod.snd hk
      rw [ha, hb]
      exact hlt r0 hr0
  · rw [if_neg hany]
    have habs : ∀ r ∈ db, coocKey r ≠ (a, b) := by
      intro r hr hk
      apply hany
      refine List.any_eq_true.mpr ⟨r, hr, ?_⟩
      rcases Prod.mk.injEq .. ▸ hk with ⟨h1, h2⟩
      exact keyMatches_iff.mpr ⟨h1, h2⟩
    refine ⟨?_, ?_⟩
    · unfold coocKeys
      rw [List.map_append]
      refine List.Nodup.append hkeys (by simp) ?_
      intro k hk1 hk2
      simp only [List.map_cons, List.map_nil, List.mem_singleton] at hk2
      rcases List.mem_map.mp hk1 with ⟨r, hr, rfl⟩
      exact habs r hr (by rw [hk2]; rfl)
    · intro r hr
      rcases List.mem_append.mp hr with hr | hr
      · exact hlt r hr
      · simp only [List.mem_singleton] at hr
        subst hr
        exact hab

theorem upsertCooc_mono {db : List CoocRow} {a b : String} {now : Nat} :
    ∀ r ∈ db, ∃ r' ∈ upsertCooc db a b now,
      coocKey r' = coocKey r ∧ r.frequency ≤ r'.frequency := by
  intro r hr
  unfold upsertCooc
  by_cases hany : db.any (keyMatches a b) = true
  · rw [if_pos hany]
    exact ⟨bumpRow a b now r, List.mem_map_of_mem _ hr,
      coocKey_bumpRow a b now r, bumpRow_freq a b now r⟩
  · rw [if_neg hany]
    exact ⟨r, List.mem_append_left _ hr, rfl, le_refl _⟩

theorem foldUpsert_wf (now : Nat) :
    ∀ (pairs : List (String × String)) (db : List CoocRow),
      (∀ p ∈ pairs, p.1 < p.2) → CoocWF db →
      CoocWF (pairs.foldl (fun d p => upsertCooc d p.1 p.2 now) db) := by
  intro pairs
  induction pairs with
  | nil =>
    intro db _ h
    exact h
  | cons p ps ih =>
    intro db hp h
    simp only [List.foldl_cons]
    exact ih _ (fun q hq => hp q (List.mem_cons_of_mem _ hq))
      (upsertCooc_wf (hp p (List.mem_cons_self _ _)) h)

theorem foldUpsert_mono (now : Nat) :
    ∀ (pairs : List (String × String)) (db : List CoocRow), ∀ r ∈ db,
      ∃ r' ∈ pairs.foldl (fun d p => upsertCooc d p.1 p.2 now) db,
        coocKey r' = coocKey r ∧ r.frequency ≤ r'.frequency := by
  intro pairs
  induction pairs with
  | nil =>
    intro db r hr
    exact ⟨r, hr, rfl, le_refl _⟩
  | cons p ps ih =>
    intro db r hr
    simp only [List.foldl_cons]
    rcases upsertCooc_mono r hr with ⟨r1, hr1, hkey1, hfreq1⟩
    rcases ih (upsertCooc db p.1 p.2 now) r1 hr1 with ⟨r2, hr2, hkey2, hfreq2⟩
    exact ⟨r2, hr2, hkey2.trans hkey1, hfreq1.trans hfreq2⟩

/-- C3: co-occurrence rows are always keyed smaller-id-first (so (A,B) and
(B,A) can never make two rows: the key set stays duplicate-free and
canonically ordered), canonicalization is order-insensitive, the per-pair
update is an upsert — insert with frequency 1 and a fresh `last_seen` when
the key is absent, increment by exactly 1 and refresh `last_seen` when
present — and rows are never deleted nor frequencies decremented (every
old row keeps a row with its key and at least its frequency). -/
theorem cooccurrence_canonical_upsert :
    ∀ (db : List CoocRow) (topic_ids : List String) (now : Nat),
      topic_ids.Nodup → CoocWF db →
      CoocWF (update_cooccurrences db topic_ids now) ∧
      (∀ r ∈ db, ∃ r' ∈ update_cooccurrences db topic_ids now,
        coocKey r' = coocKey r ∧ r.frequency ≤ r'.frequency) ∧
      (∀ x y : String, canonPair x y = canonPair y x) ∧
      (∀ (db' : List CoocRow) (a b : String) (now' : Nat),
        db'.any (keyMatches a b) = false →
        upsertCooc db' a b now' = db' ++ [⟨a, b, 1, now'⟩]) ∧
      (∀ (db' : List CoocRow) (a b : String) (now' : Nat) (r : CoocRow),
        r ∈ db' → coocKey r = (a, b) →
        (⟨a, b, r.frequency + 1, now'⟩ : CoocRow) ∈ upsertCooc db' a b now') := by
  intro db topic_ids now hids hwf
  refine ⟨?_, ?_, canonPair_comm, ?_, ?_⟩
  · exact foldUpsert_wf now (allPairs topic_ids) db (allPairs_lt hids) hwf
  · exact foldUpsert_mono now (allPairs topic_ids) db
  · intro db' a b now' hany
    unfold upsertCooc
    rw [if_neg (by rw [hany]; exact Bool.false_ne_true)]
  · intro db' a b now' r hr hk
    rcases Prod.mk.injEq .. ▸ hk with ⟨h1, h2⟩
    have hm : keyMatches a b r = true := keyMatches_iff.mpr ⟨h1, h2⟩
    have hany : db'.any (keyMatches a b) = true := List.any_eq_true.mpr ⟨r, hr, hm⟩
    unfold upsertCooc
    rw [if_pos hany]
    have hbump : bumpRow a b now' r = ⟨a, b, r.frequency + 1, now'⟩ := by
      unfold bumpRow
      rw [if_pos hm]
      cases r
      simp only at h1 h2
      simp [h1, h2]
    exact hbump ▸ List.mem_map_of_mem _ hr

/-- Witness for C3 on an empty table and two topic ids given in
non-canonical order. -/
theorem cooccurrence_canonical_upsert_witness :
    CoocWF (update_cooccurrences [] ["b", "a"] 0) :=
  (cooccurrence_canonical_upsert [] ["b", "a"] 0 (by decide)
    ⟨List.nodup_nil, by simp⟩).1

/-! ## C5 — what posts_collected counts -/

/-- Number of items a run's successful fetches return (failed fetches
contribute nothing). -/
def fetchedCount (fetches : List (Except String (List Reddit.RedditPostData))) : Nat :=
  (fetches.map fun f =>
    match f with
    | .ok posts => posts.length
    | .error _ => 0).sum

/-- Number of tweets a run's successful searches return. -/
def xFetchedCount (fetches : List (Except String (Option (List X.Tweet) × List X.XUser))) : Nat :=
  (fetches.map fun f =>
    match f with
    | .ok (some tweets, _) => tweets.length
    | .ok (none, _) => 0
    | .error _ => 0).sum

/-- C5 counterexample: a run whose only fetched item is already stored.
The store comes back unchanged — nothing was newly inserted — yet
`posts_collected` is 1, because the collect loop counts every
`Ok`-returning `process_post`, and the dedup early return is `Ok(0)`. -/
theorem posts_collected_counts_duplicates_cex :
    contentExists sampleDb "reddit" "p1" = true ∧
    Reddit.collect [] (fun n => toString n) (fun t => toString t) 0 0 (Except.ok "tok")
        [Except.ok [samplePost]] sampleDb
      = Except.ok (⟨1, 0⟩, sampleDb, 0) :=
  ⟨rfl, rfl⟩

theorem reddit_processPage_posts (catalog : List TopicData) (uuid : Nat → String)
    (fmtTime : Int → String) (now : Nat) :
    ∀ (posts : List Reddit.RedditPostData) (acc : Reddit.Acc),
      (Reddit.processPage catalog uuid fmtTime now acc posts).posts
        = acc.posts + posts.length := by
  intro posts
  induction posts with
  | nil =>
    intro acc
    rfl
  | cons p ps ih =>
    intro acc
    have h1 : Reddit.processPage catalog uuid fmtTime now acc (p :: ps)
        = Reddit.processPage catalog uuid fmtTime now
            ⟨acc.posts + 1,
             acc.topics + (Reddit.process_post catalog uuid fmtTime acc.ctr now p acc.db).1,
             (Reddit.process_post catalog uuid fmtTime acc.ctr now p acc.db).2.1,
             (Reddit.process_post catalog uuid fmtTime acc.ctr now p acc.db).2.2⟩ ps := rfl
    rw [h1, ih]
    simp only [List.length_cons]
    omega

theorem reddit_collectPages_posts (catalog : List TopicData) (uuid : Nat → String)
    (fmtTime : Int → String) (now : Nat) :
    ∀ (fetches : List (Except String (List Reddit.RedditPostData))) (acc : Reddit.Acc),
      (Reddit.collectPages catalog uuid fmtTime now fetches acc).posts
        = acc.posts + fetchedCount fetches := by
  intro fetches
  induction fetches with
  | nil =>
    intro acc
    simp [Reddit.collectPages, fetchedCount]
  | cons f fs ih =>
    intro acc
    cases f with
    | error e =>
      have h1 : Reddit.collectPages catalog uuid fmtTime now (Except.error e :: fs) acc
          = Reddit.collectPages catalog uuid fmtTime now fs acc := rfl
      rw [h1, ih]
      simp [fetchedCount]
    | ok posts =>
      have h1 : Reddit.collectPages catalog uuid fmtTime now (Except.ok posts :: fs) acc
          = Reddit.collectPages catalog uuid fmtTime now fs
              (Reddit.processPage catalog uuid fmtTime now acc posts) := rfl
      rw [h1, ih, reddit_processPage_posts]
      simp [fetchedCount]
      omega

theorem x_processPage_posts (catalog : List TopicData) (uuid : Nat → String)
    (now : Nat) (users : List X.XUser) :
    ∀ (tweets : List X.Tweet) (acc : X.Acc),
      (X.processPage catalog uuid now users acc tweets).posts
        = acc.posts + tweets.length := by
  intro tweets
  induction tweets with
  | nil =>
    intro acc
    rfl
  | cons t ts ih =>
    intro acc
    have h1 : X.processPage catalog uuid now users acc (t :: ts)
        = X.processPage catalog uuid now users
            ⟨acc.posts + 1,
             acc.topics + (X.process_tweet catalog uuid acc.ctr now t
               (X.lookupUser users t.author_id) acc.db).1,
             (X.process_tweet catalog uuid acc.ctr now t
               (X.lookupUser users t.author_id) acc.db).2.1,
             (X.process_tweet catalog uuid acc.ctr now t
               (X.lookupUser users t.author_id) acc.db).2.2⟩ ts := rfl
    rw [h1, ih]
    simp only [List.length_cons]
    omega

theorem x_collectPages_posts (catalog : List TopicData) (uuid : Nat → String) (now : Nat) :
    ∀ (fetches : List (Except String (Option (List X.Tweet) × List X.XUser))) (acc : X.Acc),
      (X.collectPages catalog uuid now fetches acc).posts
        = acc.posts + xFetchedCount fetches := by
  intro fetches
  induction fetches with
  | nil =>
    intro acc
    simp [X.collectPages, xFetchedCount]
  | cons f fs ih =>
    intro acc
    rcases f with e | ⟨data, users⟩
    · have h1 : X.collectPages catalog uuid now (Except.error e :: fs) acc
          = X.collectPages catalog uuid now fs acc := rfl
      rw [h1, ih]
      simp [xFetchedCount]
    · cases data with
      | none =>
        have h1 : X.collectPages catalog uuid now (Except.ok (none, users) :: fs) acc
            = X.collectPages catalog uuid now fs acc := rfl
        rw [h1, ih]
        simp [xFetchedCount]
      | some tweets =>
        have h1 : X.collectPages catalog uuid now (Except.ok (some tweets, users) :: fs) acc
            = X.collectPages catalog uuid now fs
                (X.processPage catalog uuid now users acc tweets) := rfl
        rw [h1, ih, x_processPage_posts]
        simp [xFetchedCount]
        omega

/-- C5 amended: `posts_collected` counts every item processed without
error — duplicates included.  It equals the total number of items the
run's successful fetches returned, not the number of newly inserted rows
(duplicates contribute 0 to `topics_extracted` and leave the store
unchanged, but still increment `posts_collected`). -/
theorem posts_collected_amended :
    (∀ (catalog : List TopicData) (uuid : Nat → String) (fmtTime : Int → String)
      (ctr0 now : Nat) (tok : String)
      (fetches : List (Except String (List Reddit.RedditPostData))) (db0 : Db)
      (res : CollectionResult × Db × Nat),
      Reddit.collect catalog uuid fmtTime ctr0 now (Except.ok tok) fetches db0
        = Except.ok res →
      res.1.posts_collected = fetchedCount fetches) ∧
    (∀ (catalog : List TopicData) (uuid : Nat → String) (ctr0 now : Nat)
      (fetches : List (Except String (Option (List X.Tweet) × List X.XUser))) (db0 : Db),
      (X.collect catalog uuid ctr0 now fetches db0).1.posts_collected
        = xFetchedCount fetches) := by
  constructor
  · intro catalog uuid fmtTime ctr0 now tok fetches db0 res h
    have h2 : res = (⟨(Reddit.collectPages catalog uuid fmtTime now fetches ⟨0, 0, db0, ctr0⟩).posts,
        (Reddit.collectPages catalog uuid fmtTime now fetches ⟨0, 0, db0, ctr0⟩).topics⟩,
        (Reddit.collectPages catalog uuid fmtTime now fetches ⟨0, 0, db0, ctr0⟩).db,
        (Reddit.collectPages catalog uuid fmtTime now fetches ⟨0, 0, db0, ctr0⟩).ctr) := by
      exact (Except.ok.injEq .. ▸ h).symm
    rw [h2]
    have h3 := reddit_collectPages_posts catalog uuid fmtTime now fetches ⟨0, 0, db0, ctr0⟩
    simpa using h3
  · intro catalog uuid ctr0 now fetches db0
    have h3 := x_collectPages_posts catalog uuid now fetches ⟨0, 0, db0, ctr0⟩
    simpa [X.collect] using h3

/-- Witness for the amended C5: the duplicate run above reports exactly
the one fetched (duplicate) item. -/
theorem posts_collected_amended_witness :
    (⟨1, 0⟩ : CollectionResult).posts_collected = fetchedCount [Except.ok [samplePost]] :=
  posts_collected_amended.1 [] (fun n => toString n) (fun t => toString t) 0 0 "tok"
    [Except.ok [samplePost]] sampleDb (⟨1, 0⟩, sampleDb, 0) rfl

end Trendr
